import Mathlib

/-!
# Redirector: a shallow embedding of `redirector.c`

Bytes are natural numbers (a `char` is a value below 256; nothing below depends
on that bound).  A C string is represented by the bytes that precede its
terminating NUL.  Fixed-size `char` buffers are lists of their cells.

The calls `on_request` makes on libevent and on Berkeley DB are recorded in an
`Effects` value: the keys handed to `db->get`, the bytes printed on stdout, the
headers handed to `evhttp_add_header`, and the arguments of
`evhttp_send_reply`.
-/

namespace Redirector

/-! ## C library helpers -/

/-- The bytes of an ASCII string literal. -/
def bytes (s : String) : List Nat := s.toList.map Char.toNat

/-- The function `isspace` of the C locale: space, and `\t \n \v \f \r`. -/
def isspace (c : Nat) : Bool := c == 32 || (9 ≤ c && c ≤ 13)

/-- The function `isdigit`: the bytes `'0'` .. `'9'`. -/
def isdigit (c : Nat) : Bool := 48 ≤ c && c ≤ 57

/-- The digit loop of `atoi`: accumulate decimal digits until the first byte
that is not a digit (the terminating NUL included). -/
def atoi_digits : Nat → List Nat → Nat
  | acc, [] => acc
  | acc, c :: cs => if isdigit c then atoi_digits (acc * 10 + (c - 48)) cs else acc

/-- The function `atoi` on the cells that start at the pointer: skip white
space, read an optional sign, then read decimal digits.  The result is the
mathematical value; it is the `int` that C returns whenever it fits one. -/
def atoi (s : List Nat) : Int :=
  match s.dropWhile isspace with
  | 45 :: r => - (atoi_digits 0 r : Int)
  | 43 :: r => (atoi_digits 0 r : Int)
  | r => (atoi_digits 0 r : Int)

/-- The C string that starts at a cell of a buffer: the bytes up to the first
NUL. -/
def cstr (cells : List Nat) : List Nat := cells.takeWhile (fun c => c != 0)

/-- The text `printf` writes for `%d`. -/
def fmt_d (n : Int) : List Nat := bytes (toString n)

/-- The call `memcpy(dst, src, n)` with `dst` a buffer: the first `n` cells
are replaced by the first `n` bytes of `src`. -/
def memcpy (dst src : List Nat) (n : Nat) : List Nat := src.take n ++ dst.drop n

/-! ## `on_request` -/

/-- What `evhttp_send_reply` is called with: the status code, the explanation
and the content of the response buffer. -/
structure Reply where
  code : Int
  reason : List Nat
  body : List Nat
deriving DecidableEq

/-- The observable actions of one call of `on_request`. -/
structure Effects where
  db_gets : List (List Nat)
  stdout : List Nat
  output_headers : List (List Nat × List Nat)
  reply : Option Reply
deriving DecidableEq

/-- The number of cells of `data_buf`. -/
def data_buf_len : Nat := 2048

/-- The variable `data_buf_size`. -/
def data_buf_size : Nat := 2047

/-- The macro `LOG(level, ...)`: when `level <= options.verbose`, print the
timestamp and a tab, then the formatted text. -/
def LOG (level verbose : Nat) (ts text : List Nat) : List Nat :=
  if level ≤ verbose then ts ++ [9] ++ text else []

/-- The three response variables set by the branch on the lookup status:
`http_status_code`, `http_explanation`, `location` (NULL is `none`) and
`text` (NULL is `none`). -/
def resolve (DB_NOTFOUND : Int) (status : Int) (data : List Nat) :
    Int × List Nat × Option (List Nat) × Option (List Nat) :=
  if status = 0 then
    let sz := if data_buf_size < data.length then data_buf_size else data.length
    let data_buf := memcpy (List.replicate data_buf_len 0) data sz
    let data_buf := data_buf.set 3 0
    (atoi data_buf, bytes "Redirect", some (cstr (data_buf.drop 4)), none)
  else if status = DB_NOTFOUND then
    (404, bytes "Not found", none, some (bytes "404. Redirect not found"))
  else
    (500, bytes "Internal server error", none, some (bytes "500. Internal server error"))

/-- The request handler.  Parameters: the value of `DB_NOTFOUND` from `db.h`;
`options.verbose`; the timestamp `strftime` produces; whether `evbuffer_new`
returns a buffer; the store, as the status and the `data` that `db->get` gives
for a key; and the value of the `Host` header (`none` when
`evhttp_find_header` returns NULL). -/
def on_request (DB_NOTFOUND : Int) (verbose : Nat) (ts : List Nat) (evb : Bool)
    (db : List Nat → Int × List Nat) (hostname : Option (List Nat)) : Effects :=
  match hostname with
  | none => { db_gets := [], stdout := [], output_headers := [], reply := none }
  | some hostname =>
    let r := db hostname
    let (http_status_code, http_explanation, location, text) :=
      resolve DB_NOTFOUND r.1 r.2
    let out := LOG 1 verbose ts
      (hostname ++ [9] ++ fmt_d http_status_code ++ [9] ++ location.getD (bytes "-") ++ [10])
    if !evb then
      { db_gets := [hostname], stdout := out, output_headers := [], reply := none }
    else
      let hs := [(bytes "Server", bytes "Redirector/0.1"), (bytes "Connection", bytes "close")]
      let hs := match location with
        | some l => hs ++ [(bytes "Location", l)]
        | none => hs
      let body := match text with
        | some t => t
        | none => []
      { db_gets := [hostname], stdout := out, output_headers := hs,
        reply := some { code := http_status_code, reason := http_explanation, body := body } }

/-- The values of the `Location` headers handed to `evhttp_add_header`. -/
def locations (e : Effects) : List (List Nat) :=
  (e.output_headers.filter (fun h => h.1 == bytes "Location")).map (fun h => h.2)

/-! ## `get_options` -/

/-- The structure `rd_options`; a NULL string is `none`.  The field `port` is
an `unsigned short` and `verbose` an `unsigned int`. -/
structure rd_options where
  filename : Option (List Nat)
  ip : Option (List Nat)
  username : Option (List Nat)
  uid : Nat
  gid : Nat
  port : Nat
  verbose : Nat
deriving DecidableEq

/-- The state of the option loop: the options, `*err` and `has_error`. -/
structure OptState where
  opts : rd_options
  err : Option String
  has_error : Nat
deriving DecidableEq

/-- One pass through the `switch` for the option character `c` with argument
`optarg`.  The assignment to the `unsigned short` field reduces the value of
`atoi` modulo 65536 before the range test reads it back. -/
def get_options_case (getpwnam : List Nat → Option (Nat × Nat)) (c : Nat) (optarg : List Nat)
    (s : OptState) : OptState :=
  if c = 102 then { s with opts := { s.opts with filename := some optarg } }
  else if c = 105 then { s with opts := { s.opts with ip := some optarg } }
  else if c = 112 then
    let port := (atoi optarg % 65536).toNat
    let s := { s with opts := { s.opts with port := port } }
    if (port : Int) ≤ 0 ∨ (port : Int) > 65535 then
      { s with err := some "incorrect port number", has_error := s.has_error + 1 }
    else s
  else if c = 117 then
    let s := { s with opts := { s.opts with username := some optarg } }
    match getpwnam optarg with
    | none => { s with err := some "user with given name not found", has_error := s.has_error + 1 }
    | some (uid, gid) => { s with opts := { s.opts with uid := uid, gid := gid } }
  else if c = 118 then
    { s with opts := { s.opts with verbose := (s.opts.verbose + 1) % 4294967296 } }
  else if c = 104 then { s with has_error := s.has_error + 1 }
  else { s with has_error := s.has_error + 1 }

/-- The `while (1)` loop over the successive results of `getopt_long` (the
option character and `optarg`); the end of the list is the result `-1`. -/
def get_options_loop (getpwnam : List Nat → Option (Nat × Nat)) :
    List (Nat × List Nat) → OptState → OptState
  | [], s => s
  | (c, optarg) :: rest, s =>
    if s.has_error ≠ 0 then s
    else get_options_loop getpwnam rest (get_options_case getpwnam c optarg s)

/-- The function `get_options`: the return value, the options and `*err`. -/
def get_options (getpwnam : List Nat → Option (Nat × Nat)) (args : List (Nat × List Nat))
    (opts : rd_options) (err : Option String) : Int × rd_options × Option String :=
  let opts := { opts with ip := some (bytes "0.0.0.0"), port := 80 }
  let s := get_options_loop getpwnam args { opts := opts, err := err, has_error := 0 }
  if s.has_error ≠ 0 then (1, s.opts, s.err)
  else if s.opts.filename.isNone then
    (1, s.opts, some "required option --file (-f) is not set")
  else (0, s.opts, s.err)

/-! ## The record format -/

/-- The record format in the words of the spec, as a function: the three
decimal digits of the code, one separator byte, and the bytes of the location.
The source has no encoder (the store is filled by other tools); this
definition only builds the stored values of the round trip. -/
def encode (code sep : Nat) (location : List Nat) : List Nat :=
  (48 + code / 100 % 10) :: (48 + code / 10 % 10) :: (48 + code % 10) :: sep :: location

/-- Whether a stored value starts with three ASCII digits. -/
def leading_digits : List Nat → Bool
  | c0 :: c1 :: c2 :: _ => isdigit c0 && isdigit c1 && isdigit c2
  | _ => false

/-! ## Lemmas on the C library helpers -/

theorem atoi_digits_append_zero (s r : List Nat) (acc : Nat) :
    atoi_digits acc (s ++ 0 :: r) = atoi_digits acc s := by
  induction s generalizing acc with
  | nil => simp [atoi_digits, isdigit]
  | cons c cs ih =>
    simp only [List.cons_append, atoi_digits]
    split
    · exact ih _
    · rfl

theorem atoi_append_zero (s r : List Nat) : atoi (s ++ 0 :: r) = atoi s := by
  induction s with
  | nil => simp [atoi, isspace, atoi_digits, isdigit]
  | cons c cs ih =>
    by_cases hc : isspace c = true
    · have h1 : atoi (c :: cs ++ 0 :: r) = atoi (cs ++ 0 :: r) := by
        simp [atoi, List.dropWhile_cons, hc]
      have h2 : atoi (c :: cs) = atoi cs := by
        simp [atoi, List.dropWhile_cons, hc]
      rw [h1, h2, ih]
    · have e1 : (c :: cs ++ 0 :: r).dropWhile isspace = c :: (cs ++ 0 :: r) := by
        simp [List.dropWhile_cons, hc]
      have e2 : (c :: cs).dropWhile isspace = c :: cs := by
        simp [List.dropWhile_cons, hc]
      unfold atoi
      rw [e1, e2]
      by_cases h45 : c = 45
      · subst h45; simp [atoi_digits_append_zero]
      · by_cases h43 : c = 43
        · subst h43; simp [atoi_digits_append_zero]
        · have := atoi_digits_append_zero (c :: cs) r 0
          simp only [List.cons_append] at this
          split <;> simp_all

theorem atoi_append_zeros (s z : List Nat) (hz : ∀ x ∈ z, x = 0) : atoi (s ++ z) = atoi s := by
  cases z with
  | nil => simp
  | cons a t =>
    have : a = 0 := hz a (by simp)
    subst this
    exact atoi_append_zero s t

theorem cstr_append_zeros (s z : List Nat) (hz : ∀ x ∈ z, x = 0) : cstr (s ++ z) = cstr s := by
  induction s with
  | nil =>
    cases z with
    | nil => rfl
    | cons a t =>
      have : a = 0 := hz a (by simp)
      subst this
      simp [cstr]
  | cons c cs ih =>
    simp only [cstr, List.cons_append, List.takeWhile_cons] at ih ⊢
    split
    · rw [ih]
    · rfl

theorem cstr_of_no_zero (s : List Nat) (h : ∀ x ∈ s, x ≠ 0) : cstr s = s := by
  unfold cstr
  rw [List.takeWhile_eq_self_iff]
  intro x hx
  simpa using h x hx

theorem atoi_of_isdigit (c : Nat) (r : List Nat) (h : isdigit c = true) :
    atoi (c :: r) = (atoi_digits 0 (c :: r) : Int) := by
  have hc : 48 ≤ c ∧ c ≤ 57 := by simpa [isdigit] using h
  have hs : isspace c = false := by
    simp [isspace]; omega
  unfold atoi
  rw [List.dropWhile_cons, hs]
  simp only [Bool.false_eq_true, if_false]
  split
  · rename_i heq
    have := (List.cons.inj heq).1
    omega
  · rename_i heq
    have := (List.cons.inj heq).1
    omega
  · rfl

/-! ## The decoding of a stored value -/

theorem take_sz (data : List Nat) :
    data.take (if data_buf_size < data.length then data_buf_size else data.length)
      = data.take data_buf_size := by
  split
  · rfl
  · rw [List.take_of_length_le (le_refl _), List.take_of_length_le (by omega)]

theorem decode_buf (a z : List Nat) (hz : ∀ x ∈ z, x = 0) (hl : 3 < (a ++ z).length) :
    atoi ((a ++ z).set 3 0) = atoi (a.take 3) ∧
      cstr (((a ++ z).set 3 0).drop 4) = cstr (a.drop 4) := by
  have h3 : ((a ++ z).take 3).length = 3 := by
    rw [List.length_take]; omega
  rw [List.set_eq_take_append_cons_drop, if_pos hl]
  constructor
  · rw [atoi_append_zero, List.take_append_eq_append_take]
    exact atoi_append_zeros _ _ (fun x hx => hz x (List.mem_of_mem_take hx))
  · rw [List.drop_append_eq_append_drop, h3, List.drop_of_length_le (by omega)]
    simp only [List.nil_append, Nat.reduceSub, List.drop_succ_cons, List.drop_zero]
    rw [List.drop_append_eq_append_drop]
    exact cstr_append_zeros _ _ (fun x hx => hz x (List.mem_of_mem_drop hx))

/-- The buffer after `memcpy` and `data_buf[3] = 0`, for any stored value. -/
theorem resolve_hit (nf : Int) (data : List Nat) :
    resolve nf 0 data =
      (atoi (data.take 3), bytes "Redirect",
        some (cstr ((data.take data_buf_size).drop 4)), none) := by
  have hz : ∀ n, ∀ x ∈ (List.replicate data_buf_len 0).drop n, x = 0 := by
    intro n x hx
    exact List.eq_of_mem_replicate (List.mem_of_mem_drop hx)
  have hbl : ∀ n, n ≤ data_buf_size → n ≤ data.length →
      3 < (data.take n ++ (List.replicate data_buf_len 0).drop n).length := by
    intro n hn hd
    simp only [List.length_append, List.length_take, List.length_drop, List.length_replicate]
    have h1 : data_buf_len = 2048 := rfl
    have h2 : n ≤ 2047 := hn
    rw [h1]
    omega
  have hsz : (if data_buf_size < data.length then data_buf_size else data.length) ≤ data_buf_size := by
    split <;> omega
  have hsd : (if data_buf_size < data.length then data_buf_size else data.length) ≤ data.length := by
    split <;> omega
  obtain ⟨h1, h2⟩ := decode_buf _ _ (hz _) (hbl _ hsz hsd)
  simp only [resolve, if_true, memcpy]
  rw [h1, h2, take_sz, List.take_take]
  have : min 3 data_buf_size = 3 := by decide
  rw [this]

/-! ## The handler on each lookup outcome -/

theorem on_request_hit (nf : Int) (v : Nat) (ts : List Nat) (db : List Nat → Int × List Nat)
    (host data : List Nat) (hdb : db host = (0, data)) :
    on_request nf v ts true db (some host) =
      { db_gets := [host],
        stdout := LOG 1 v ts (host ++ [9] ++ fmt_d (atoi (data.take 3)) ++ [9]
          ++ cstr ((data.take data_buf_size).drop 4) ++ [10]),
        output_headers := [(bytes "Server", bytes "Redirector/0.1"),
          (bytes "Connection", bytes "close"),
          (bytes "Location", cstr ((data.take data_buf_size).drop 4))],
        reply := some ⟨atoi (data.take 3), bytes "Redirect", []⟩ } := by
  simp [on_request, hdb, resolve_hit]

theorem on_request_notfound (nf : Int) (v : Nat) (ts : List Nat) (db : List Nat → Int × List Nat)
    (host : List Nat) (hnf : nf ≠ 0) (hdb : (db host).1 = nf) :
    on_request nf v ts true db (some host) =
      { db_gets := [host],
        stdout := LOG 1 v ts (host ++ [9] ++ fmt_d 404 ++ [9] ++ bytes "-" ++ [10]),
        output_headers := [(bytes "Server", bytes "Redirector/0.1"),
          (bytes "Connection", bytes "close")],
        reply := some ⟨404, bytes "Not found", bytes "404. Redirect not found"⟩ } := by
  simp [on_request, hdb, resolve, hnf]

theorem on_request_error (nf : Int) (v : Nat) (ts : List Nat) (db : List Nat → Int × List Nat)
    (host : List Nat) (h0 : (db host).1 ≠ 0) (hdb : (db host).1 ≠ nf) :
    on_request nf v ts true db (some host) =
      { db_gets := [host],
        stdout := LOG 1 v ts (host ++ [9] ++ fmt_d 500 ++ [9] ++ bytes "-" ++ [10]),
        output_headers := [(bytes "Server", bytes "Redirector/0.1"),
          (bytes "Connection", bytes "close")],
        reply := some ⟨500, bytes "Internal server error", bytes "500. Internal server error"⟩ } := by
  simp [on_request, hdb, resolve, h0]

theorem on_request_stdout (nf : Int) (v : Nat) (ts : List Nat) (evb : Bool)
    (db : List Nat → Int × List Nat) (host : List Nat) :
    (on_request nf v ts evb db (some host)).stdout =
      (on_request nf v ts true db (some host)).stdout := by
  cases evb <;> simp [on_request]

/-! ## Bounds -/

theorem cstr_isPrefix (s : List Nat) : cstr s <+: s := by
  unfold cstr
  exact List.takeWhile_prefix _

theorem location_length_le (data : List Nat) :
    (cstr ((data.take data_buf_size).drop 4)).length ≤ 2043 := by
  have h := (cstr_isPrefix ((data.take data_buf_size).drop 4)).length_le
  have h2 : ((data.take data_buf_size).drop 4).length ≤ 2043 := by
    simp only [List.length_drop, List.length_take]
    have : data_buf_size = 2047 := rfl
    omega
  omega

theorem atoi_digits_bound (s : List Nat) (acc : Nat) :
    atoi_digits acc s + 1 ≤ (acc + 1) * 10 ^ s.length := by
  induction s generalizing acc with
  | nil => simp [atoi_digits]
  | cons c cs ih =>
    have hp : 0 < 10 ^ cs.length := Nat.pow_pos (by norm_num)
    simp only [atoi_digits, List.length_cons, pow_succ]
    split
    · rename_i hc
      have hc2 : 48 ≤ c ∧ c ≤ 57 := by simpa [isdigit] using hc
      have h := ih (acc * 10 + (c - 48))
      have h3 : (acc * 10 + (c - 48) + 1) * 10 ^ cs.length ≤ (acc + 1) * (10 ^ cs.length * 10) := by
        have : acc * 10 + (c - 48) + 1 ≤ (acc + 1) * 10 := by omega
        calc (acc * 10 + (c - 48) + 1) * 10 ^ cs.length
            ≤ ((acc + 1) * 10) * 10 ^ cs.length := Nat.mul_le_mul_right _ this
          _ = (acc + 1) * (10 ^ cs.length * 10) := by ring
      omega
    · nlinarith

theorem atoi_bound (s : List Nat) :
    -(10 ^ s.length : Int) < atoi s ∧ atoi s < (10 ^ s.length : Int) := by
  have hs : (s.dropWhile isspace).length ≤ s.length := (List.dropWhile_suffix _).length_le
  have key : ∀ r : List Nat, r.length ≤ s.length → (atoi_digits 0 r : Int) < 10 ^ s.length := by
    intro r hr
    have h := atoi_digits_bound r 0
    have h2 : 10 ^ r.length ≤ 10 ^ s.length := Nat.pow_le_pow_right (by norm_num) hr
    have h3 : atoi_digits 0 r < 10 ^ s.length := by omega
    exact_mod_cast h3
  unfold atoi
  split
  · rename_i r heq
    rw [heq] at hs
    have := key r (by simp at hs; omega)
    constructor <;> omega
  · rename_i r heq
    rw [heq] at hs
    have := key r (by simp at hs; omega)
    constructor <;> omega
  · have := key _ hs
    constructor <;> omega

theorem atoi_bound_of_not_digits (data : List Nat) (h : leading_digits data = false) :
    -99 ≤ atoi (data.take 3) ∧ atoi (data.take 3) ≤ 99 := by
  have small : ∀ s : List Nat, s.length ≤ 2 → -99 ≤ atoi s ∧ atoi s ≤ 99 := by
    intro s hs
    have hb := atoi_bound s
    have hp : (10 : Int) ^ s.length ≤ 10 ^ 2 := pow_le_pow_right₀ (by norm_num) hs
    constructor <;> omega
  match data, h with
  | [], _ => exact small _ (by simp)
  | [a], _ => exact small _ (by simp)
  | [a, b], _ => exact small _ (by simp)
  | a :: b :: c :: rest, h =>
    simp only [List.take_succ_cons, List.take_zero]
    by_cases hsp : isspace a = true
    · have e : atoi [a, b, c] = atoi [b, c] := by
        simp [atoi, List.dropWhile_cons, hsp]
      rw [e]
      exact small _ (by simp)
    · have e : [a, b, c].dropWhile isspace = [a, b, c] := by
        simp [List.dropWhile_cons, hsp]
      have hd := atoi_digits_bound [b, c] 0
      simp only [List.length_cons, List.length_nil] at hd
      unfold atoi
      rw [e]
      split
      · rename_i r heq
        obtain ⟨-, rfl⟩ := List.cons.inj heq
        constructor <;> omega
      · rename_i r heq
        obtain ⟨-, rfl⟩ := List.cons.inj heq
        constructor <;> omega
      · simp only [leading_digits, isdigit, Bool.and_eq_false_iff, Bool.and_eq_true,
          decide_eq_true_eq, decide_eq_false_iff_not] at h
        simp only [atoi_digits, isdigit, Bool.and_eq_true, decide_eq_true_eq]
        split_ifs <;> omega

/-! ## Claims -/

/-- C1: a value made of three ASCII digits, one separator byte (any byte) and
a location without a zero byte, of total length at most 2047, is answered (when
the response buffer is allocated) with the status the digits spell, the
explanation "Redirect", a `Location` header that is exactly the bytes from
index 4, and an empty body. -/
theorem C1_decode_well_formed (nf : Int) (v : Nat) (ts : List Nat)
    (db : List Nat → Int × List Nat) (host : List Nat) (c0 c1 c2 sep : Nat) (loc : List Nat)
    (hdb : db host = (0, c0 :: c1 :: c2 :: sep :: loc))
    (h0 : isdigit c0 = true) (h1 : isdigit c1 = true) (h2 : isdigit c2 = true)
    (hlen : (c0 :: c1 :: c2 :: sep :: loc).length ≤ 2047) (hnz : ∀ x ∈ loc, x ≠ 0) :
    (on_request nf v ts true db (some host)).reply
        = some ⟨100 * (c0 - 48 : Nat) + 10 * (c1 - 48 : Nat) + (c2 - 48 : Nat),
            bytes "Redirect", []⟩ ∧
      (on_request nf v ts true db (some host)).output_headers
        = [(bytes "Server", bytes "Redirector/0.1"), (bytes "Connection", bytes "close"),
            (bytes "Location", loc)] ∧
      locations (on_request nf v ts true db (some host)) = [loc] := by
  have hloc : cstr (((c0 :: c1 :: c2 :: sep :: loc).take data_buf_size).drop 4) = loc := by
    rw [List.take_of_length_le (by simpa [data_buf_size] using hlen)]
    simpa using cstr_of_no_zero loc hnz
  have hat : atoi ((c0 :: c1 :: c2 :: sep :: loc).take 3)
      = 100 * (c0 - 48 : Nat) + 10 * (c1 - 48 : Nat) + (c2 - 48 : Nat) := by
    simp only [List.take_succ_cons, List.take_zero]
    rw [atoi_of_isdigit c0 _ h0]
    simp only [atoi_digits, h0, h1, h2, if_true]
    push_cast
    ring
  rw [on_request_hit nf v ts db host _ hdb, hloc, hat]
  refine ⟨rfl, rfl, ?_⟩
  simp [locations, bytes]

/-- C1, at the value "301 http://example.com": status 301 and
`Location: http://example.com`. -/
theorem C1_decode_well_formed_witness :
    (on_request (-30988) 1 (bytes "2024-01-01 00:00:00") true
        (fun _ => (0, bytes "301 http://example.com")) (some (bytes "example.org"))).reply
        = some ⟨301, bytes "Redirect", []⟩ ∧
      locations (on_request (-30988) 1 (bytes "2024-01-01 00:00:00") true
        (fun _ => (0, bytes "301 http://example.com")) (some (bytes "example.org")))
        = [bytes "http://example.com"] :=
  have h := C1_decode_well_formed (-30988) 1 (bytes "2024-01-01 00:00:00")
    (fun _ => (0, bytes "301 http://example.com")) (bytes "example.org") 51 48 49 32
    (bytes "http://example.com") rfl (by decide) (by decide) (by decide) (by decide) (by decide)
  ⟨h.1, h.2.2⟩

/-- C2, refuted at the stored value "abc x": its leading bytes are not
digits, and the answer is status 0 with the header `Location: x`, not a 500
without `Location`. -/
theorem C2_undecodable_counterexample :
    leading_digits (bytes "abc x") = false ∧
      (on_request (-30988) 0 [] true (fun _ => (0, bytes "abc x")) (some (bytes "h"))).reply
        = some ⟨0, bytes "Redirect", []⟩ ∧
      locations (on_request (-30988) 0 [] true (fun _ => (0, bytes "abc x")) (some (bytes "h")))
        = [bytes "x"] := by
  rw [on_request_hit (-30988) 0 [] (fun _ => (0, bytes "abc x")) (bytes "h") _ rfl]
  decide

/-- C2, amended: a stored value that is shorter than 4 bytes, or that does not
start with three ASCII digits, is answered like every other hit (the statement
holds for every stored value): explanation "Redirect", empty body, one
`Location` header (the bytes from index 4 of the first 2047 bytes, up to the
first zero byte) and the status `atoi` reads in the first three bytes.  The
`Location` is empty when the value is shorter than 4 bytes, and the status lies
between -99 and 99 when the value does not start with three digits. -/
theorem C2_undecodable_is_redirect (nf : Int) (v : Nat) (ts : List Nat)
    (db : List Nat → Int × List Nat) (host data : List Nat) (hdb : db host = (0, data)) :
    (on_request nf v ts true db (some host)).reply
        = some ⟨atoi (data.take 3), bytes "Redirect", []⟩ ∧
      locations (on_request nf v ts true db (some host))
        = [cstr ((data.take 2047).drop 4)] ∧
      (4 ≤ data.length ∨ cstr ((data.take 2047).drop 4) = []) ∧
      (leading_digits data = true ∨
        (-99 ≤ atoi (data.take 3) ∧ atoi (data.take 3) ≤ 99)) := by
  rw [on_request_hit nf v ts db host data hdb]
  refine ⟨rfl, by simp [locations, bytes, data_buf_size], ?_, ?_⟩
  · by_cases hlen : 4 ≤ data.length
    · exact Or.inl hlen
    · right
      rw [List.drop_of_length_le (by simp only [List.length_take]; omega)]
      rfl
  · cases hd : leading_digits data with
    | true => exact Or.inl rfl
    | false => exact Or.inr (atoi_bound_of_not_digits data hd)

/-- C2, amended, at the two-byte value "ab": status 0 and an empty
`Location`. -/
theorem C2_undecodable_is_redirect_witness :
    (on_request (-30988) 0 [] true (fun _ => (0, bytes "ab")) (some (bytes "h"))).reply
        = some ⟨0, bytes "Redirect", []⟩ ∧
      locations (on_request (-30988) 0 [] true (fun _ => (0, bytes "ab")) (some (bytes "h")))
        = [[]] :=
  have h := C2_undecodable_is_redirect (-30988) 0 [] (fun _ => (0, bytes "ab")) (bytes "h")
    (bytes "ab") rfl
  ⟨h.1, h.2.1⟩

/-- C3: when the lookup reports `DB_NOTFOUND` (a non-zero code), the answer is
status 404, explanation "Not found", the body "404. Redirect not found", which
is not empty, and no `Location` header. -/
theorem C3_not_found (nf : Int) (v : Nat) (ts : List Nat)
    (db : List Nat → Int × List Nat) (host : List Nat)
    (hnf : nf ≠ 0) (hdb : (db host).1 = nf) :
    (on_request nf v ts true db (some host)).reply
        = some ⟨404, bytes "Not found", bytes "404. Redirect not found"⟩ ∧
      bytes "404. Redirect not found" ≠ [] ∧
      (on_request nf v ts true db (some host)).output_headers
        = [(bytes "Server", bytes "Redirector/0.1"), (bytes "Connection", bytes "close")] ∧
      locations (on_request nf v ts true db (some host)) = [] := by
  rw [on_request_notfound nf v ts db host hnf hdb]
  refine ⟨rfl, by decide, rfl, rfl⟩

/-- C3, at a store without the key. -/
theorem C3_not_found_witness :
    (on_request (-30988) 1 [] true (fun _ => (-30988, [])) (some (bytes "h"))).reply
        = some ⟨404, bytes "Not found", bytes "404. Redirect not found"⟩ ∧
      bytes "404. Redirect not found" ≠ [] ∧
      (on_request (-30988) 1 [] true (fun _ => (-30988, [])) (some (bytes "h"))).output_headers
        = [(bytes "Server", bytes "Redirector/0.1"), (bytes "Connection", bytes "close")] ∧
      locations (on_request (-30988) 1 [] true (fun _ => (-30988, [])) (some (bytes "h"))) = [] :=
  C3_not_found (-30988) 1 [] (fun _ => (-30988, [])) (bytes "h") (by decide) rfl

/-- C4: when the lookup result is neither 0 nor `DB_NOTFOUND`, the answer is
status 500, explanation "Internal server error", the body "500. Internal
server error" and no `Location` header; the status is not 404. -/
theorem C4_store_error (nf : Int) (v : Nat) (ts : List Nat)
    (db : List Nat → Int × List Nat) (host : List Nat)
    (h0 : (db host).1 ≠ 0) (hdb : (db host).1 ≠ nf) :
    (on_request nf v ts true db (some host)).reply
        = some ⟨500, bytes "Internal server error", bytes "500. Internal server error"⟩ ∧
      (on_request nf v ts true db (some host)).output_headers
        = [(bytes "Server", bytes "Redirector/0.1"), (bytes "Connection", bytes "close")] ∧
      locations (on_request nf v ts true db (some host)) = [] ∧
      (on_request nf v ts true db (some host)).reply.map Reply.code ≠ some 404 := by
  rw [on_request_error nf v ts db host h0 hdb]
  refine ⟨rfl, rfl, rfl, by simp⟩

/-- C4, at a lookup that fails with the code 5. -/
theorem C4_store_error_witness :
    (on_request (-30988) 1 [] true (fun _ => (5, [])) (some (bytes "h"))).reply
        = some ⟨500, bytes "Internal server error", bytes "500. Internal server error"⟩ ∧
      (on_request (-30988) 1 [] true (fun _ => (5, [])) (some (bytes "h"))).output_headers
        = [(bytes "Server", bytes "Redirector/0.1"), (bytes "Connection", bytes "close")] ∧
      locations (on_request (-30988) 1 [] true (fun _ => (5, [])) (some (bytes "h"))) = [] ∧
      (on_request (-30988) 1 [] true (fun _ => (5, [])) (some (bytes "h"))).reply.map Reply.code
        ≠ some 404 :=
  C4_store_error (-30988) 1 [] (fun _ => (5, [])) (bytes "h") (by decide) (by decide)

/-- C5, refuted: a location of 2044 bytes without a separator byte is not
decoded to itself (it is cut to fit the buffer), and a location with a zero
byte and no separator byte is cut at the zero byte. -/
theorem C5_round_trip_counterexample :
    32 ∉ List.replicate 2044 97 ∧
      resolve (-30988) 0 (encode 301 32 (List.replicate 2044 97))
        ≠ (301, bytes "Redirect", some (List.replicate 2044 97), none) ∧
      resolve (-30988) 0 (encode 301 32 [97, 0, 98])
        = (301, bytes "Redirect", some [97], none) := by
  refine ⟨?_, ?_, ?_⟩
  · intro hx
    exact absurd (List.eq_of_mem_replicate hx) (by decide)
  · rw [resolve_hit]
    intro h
    have h2 : cstr (((encode 301 32 (List.replicate 2044 97)).take data_buf_size).drop 4)
        = List.replicate 2044 97 := by
      exact Option.some.inj (Prod.mk.inj (Prod.mk.inj (Prod.mk.inj h).2).2).1
    have h3 := location_length_le (encode 301 32 (List.replicate 2044 97))
    rw [h2, List.length_replicate] at h3
    omega
  · rw [resolve_hit]
    decide

/-- C5, amended: for every code below 1000, every separator byte and every
location of at most 2043 bytes without a zero byte, decoding the encoded value
as `on_request` does gives exactly that code and that location. -/
theorem C5_round_trip (nf : Int) (code sep : Nat) (location : List Nat)
    (hcode : code ≤ 999) (hlen : location.length ≤ 2043) (hnz : ∀ x ∈ location, x ≠ 0) :
    resolve nf 0 (encode code sep location)
      = ((code : Int), bytes "Redirect", some location, none) := by
  rw [resolve_hit]
  have hloc : cstr (((encode code sep location).take data_buf_size).drop 4) = location := by
    rw [List.take_of_length_le (by simp only [encode, List.length_cons, data_buf_size]; omega)]
    simpa [encode] using cstr_of_no_zero location hnz
  have hd : ∀ d, d < 10 → isdigit (48 + d) = true := by
    intro d hd
    simp [isdigit]
    omega
  have hat : atoi ((encode code sep location).take 3) = (code : Int) := by
    simp only [encode, List.take_succ_cons, List.take_zero]
    rw [atoi_of_isdigit _ _ (hd _ (Nat.mod_lt _ (by norm_num)))]
    simp only [atoi_digits, hd _ (Nat.mod_lt _ (by norm_num)), if_true]
    have : 0 * 10 + (48 + code / 100 % 10 - 48) = code / 100 % 10 := by omega
    norm_cast
    omega
  rw [hloc, hat]

/-- C5, amended, at the code 301 and the location "http://example.com". -/
theorem C5_round_trip_witness :
    resolve (-30988) 0 (encode 301 32 (bytes "http://example.com"))
      = (((301 : Nat) : Int), bytes "Redirect", some (bytes "http://example.com"), none) :=
  C5_round_trip (-30988) 301 32 (bytes "http://example.com") (by decide) (by decide) (by decide)

/-- C6: without a `Host` header the handler does nothing: no store query, no
log output, no header added and no reply sent, whatever the store, the
verbosity and the other parameters. -/
theorem C6_no_host (nf : Int) (v : Nat) (ts : List Nat) (evb : Bool)
    (db : List Nat → Int × List Nat) :
    on_request nf v ts evb db none
      = { db_gets := [], stdout := [], output_headers := [], reply := none } := by
  rfl

/-- C7, the divergence: the port arguments "65537" and "-1" are outside
1..65535, yet `get_options` accepts them (return value 0) and sets the port to
1 and to 65535; "65536" is refused, and without `-p` the port is 80. -/
theorem C7_port_out_of_range_accepted (getpwnam : List Nat → Option (Nat × Nat))
    (opts : rd_options) (err : Option String) :
    atoi (bytes "65537") = 65537 ∧
      (get_options getpwnam [(112, bytes "65537"), (102, bytes "db")] opts err).1 = 0 ∧
      (get_options getpwnam [(112, bytes "65537"), (102, bytes "db")] opts err).2.1.port = 1 ∧
      atoi (bytes "-1") = -1 ∧
      (get_options getpwnam [(112, bytes "-1"), (102, bytes "db")] opts err).1 = 0 ∧
      (get_options getpwnam [(112, bytes "-1"), (102, bytes "db")] opts err).2.1.port = 65535 ∧
      get_options getpwnam [(112, bytes "65536"), (102, bytes "db")] opts err
        = (1, { opts with ip := some (bytes "0.0.0.0"), port := 0 },
            some "incorrect port number") ∧
      (get_options getpwnam [(102, bytes "db")] opts err).2.1.port = 80 := by
  have e1 : atoi (bytes "65537") = 65537 := by decide
  have e2 : atoi (bytes "-1") = -1 := by decide
  have e3 : atoi (bytes "65536") = 65536 := by decide
  refine ⟨e1, ?_, ?_, e2, ?_, ?_, ?_, ?_⟩ <;>
    simp [get_options, get_options_loop, get_options_case, e1, e2, e3]

/-- C8: for every request with a `Host` header and every lookup outcome, the
response sent (when the response buffer is allocated) has either exactly one
`Location` header and an empty body, or no `Location` header and a non-empty
body. -/
theorem C8_location_xor_body (nf : Int) (v : Nat) (ts : List Nat)
    (db : List Nat → Int × List Nat) (host : List Nat) :
    ∃ r, (on_request nf v ts true db (some host)).reply = some r ∧
      (((locations (on_request nf v ts true db (some host))).length = 1 ∧ r.body = []) ∨
        (locations (on_request nf v ts true db (some host)) = [] ∧ r.body ≠ [])) := by
  by_cases h0 : (db host).1 = 0
  · have hdb : db host = (0, (db host).2) := Prod.ext h0 rfl
    rw [on_request_hit nf v ts db host _ hdb]
    exact ⟨_, rfl, Or.inl ⟨by simp [locations, bytes], rfl⟩⟩
  · by_cases h1 : (db host).1 = nf
    · rw [on_request_notfound nf v ts db host (h1 ▸ h0) h1]
      exact ⟨_, rfl, Or.inr ⟨rfl, by decide⟩⟩
    · rw [on_request_error nf v ts db host h0 h1]
      exact ⟨_, rfl, Or.inr ⟨rfl, by decide⟩⟩

/-- The bytes `on_request` prints, for every request with a `Host` header:
nothing at verbosity 0, and otherwise the timestamp, a tab, the hostname, a
tab, the decimal text of the status code of the reply, a tab, the `Location`
of the reply or "-", and a line feed.  The output is the same when no response
buffer could be allocated. -/
theorem on_request_log (nf : Int) (v : Nat) (ts : List Nat) (evb : Bool)
    (db : List Nat → Int × List Nat) (host : List Nat) :
    ∃ r, (on_request nf v ts true db (some host)).reply = some r ∧
      (on_request nf v ts evb db (some host)).stdout
        = if 1 ≤ v then
            ts ++ [9] ++ host ++ [9] ++ bytes (toString r.code) ++ [9]
              ++ (locations (on_request nf v ts true db (some host))).headD (bytes "-") ++ [10]
          else [] := by
  rw [on_request_stdout]
  by_cases h0 : (db host).1 = 0
  · have hdb : db host = (0, (db host).2) := Prod.ext h0 rfl
    rw [on_request_hit nf v ts db host _ hdb]
    exact ⟨_, rfl, by simp [locations, bytes, LOG, fmt_d]⟩
  · by_cases h1 : (db host).1 = nf
    · rw [on_request_notfound nf v ts db host (h1 ▸ h0) h1]
      exact ⟨_, rfl, by simp [locations, bytes, LOG, fmt_d]⟩
    · rw [on_request_error nf v ts db host h0 h1]
      exact ⟨_, rfl, by simp [locations, bytes, LOG, fmt_d]⟩

theorem digitChar_ne_lf : ∀ d, d < 10 → (Nat.digitChar d).toNat ≠ 10 := by decide

theorem toDigitsCore_ne_lf (fuel n : Nat) (ds : List Char) (hds : ∀ c ∈ ds, c.toNat ≠ 10) :
    ∀ c ∈ Nat.toDigitsCore 10 fuel n ds, c.toNat ≠ 10 := by
  induction fuel generalizing n ds with
  | zero => simpa [Nat.toDigitsCore] using hds
  | succ f ih =>
    have hd : ∀ c ∈ Nat.digitChar (n % 10) :: ds, c.toNat ≠ 10 := by
      intro c hc
      rcases List.mem_cons.mp hc with rfl | hc
      · exact digitChar_ne_lf _ (Nat.mod_lt _ (by norm_num))
      · exact hds c hc
    simp only [Nat.toDigitsCore]
    split
    · exact hd
    · exact ih _ _ hd

theorem repr_ne_lf (n : Nat) : 10 ∉ bytes (Nat.repr n) := by
  intro h
  simp only [bytes, Nat.repr, List.asString, List.mem_map] at h
  obtain ⟨c, hc, hc10⟩ := h
  exact toDigitsCore_ne_lf _ _ [] (by simp) c hc hc10

/-- The decimal text of a status code has no line feed. -/
theorem fmt_ne_lf (n : Int) : 10 ∉ bytes (toString n) := by
  cases n with
  | ofNat m => exact repr_ne_lf m
  | negSucc m =>
    intro h
    have h2 : bytes (toString (Int.negSucc m)) = 45 :: bytes (Nat.repr (m + 1)) := by
      show bytes ("-" ++ Nat.repr (m + 1)) = _
      simp [bytes, String.toList]
    rw [h2] at h
    rcases List.mem_cons.mp h with h | h
    · omega
    · exact repr_ne_lf _ h

/-- C9, refuted at the stored value "301 http://a", a line feed, "b": at
verbosity 1 the output is not one line, it holds two line feeds, because the
`Location` is printed as it is stored. -/
theorem C9_access_log_counterexample :
    (on_request (-30988) 1 (bytes "2024-01-01 00:00:00") true
        (fun _ => (0, bytes "301 http://a\nb")) (some (bytes "h"))).stdout
      = [50, 48, 50, 52, 45, 48, 49, 45, 48, 49, 32, 48, 48, 58, 48, 48, 58, 48, 48, 9,
          104, 9, 51, 48, 49, 9, 104, 116, 116, 112, 58, 47, 47, 97, 10, 98, 10] ∧
      (on_request (-30988) 1 (bytes "2024-01-01 00:00:00") true
        (fun _ => (0, bytes "301 http://a\nb")) (some (bytes "h"))).stdout.count 10 = 2 := by
  rw [on_request_hit (-30988) 1 _ (fun _ => (0, bytes "301 http://a\nb")) (bytes "h") _ rfl]
  decide

/-- C9, amended: for every request with a `Host` header whose timestamp,
hostname and `Location` hold no line feed, the output at verbosity 1 or more is
exactly one line (its only line feed is its last byte) made of the timestamp, a
tab, the hostname, a tab, the decimal text of the status code, a tab, the
`Location` value or "-" when there is none; at verbosity 0 the output is empty.
The status code and the `Location` are those of the reply, and the output is
the same when no response buffer could be allocated. -/
theorem C9_access_log (nf : Int) (v : Nat) (ts : List Nat) (evb : Bool)
    (db : List Nat → Int × List Nat) (host : List Nat)
    (hts : 10 ∉ ts) (hhost : 10 ∉ host)
    (hloc : ∀ l ∈ locations (on_request nf v ts true db (some host)), 10 ∉ l) :
    ∃ r, (on_request nf v ts true db (some host)).reply = some r ∧
      (on_request nf v ts evb db (some host)).stdout
        = (if 1 ≤ v then
            ts ++ [9] ++ host ++ [9] ++ bytes (toString r.code) ++ [9]
              ++ (locations (on_request nf v ts true db (some host))).headD (bytes "-") ++ [10]
          else []) ∧
      (on_request nf v ts evb db (some host)).stdout.count 10 = (if 1 ≤ v then 1 else 0) := by
  obtain ⟨r, hr, hs⟩ := on_request_log nf v ts evb db host
  refine ⟨r, hr, hs, ?_⟩
  rw [hs]
  have hl : 10 ∉ (locations (on_request nf v ts true db (some host))).headD (bytes "-") := by
    cases hc : locations (on_request nf v ts true db (some host)) with
    | nil => decide
    | cons l t => exact hloc l (by rw [hc]; exact List.mem_cons_self _ _)
  split
  · simp only [List.count_append, List.count_eq_zero_of_not_mem hts,
      List.count_eq_zero_of_not_mem hhost, List.count_eq_zero_of_not_mem (fmt_ne_lf r.code),
      List.count_eq_zero_of_not_mem hl]
    decide
  · rfl

/-- C9, amended, at the stored value "301 http://example.com": the line
printed at verbosity 1, byte for byte. -/
theorem C9_access_log_witness :
    (on_request (-30988) 1 (bytes "2024-01-01 00:00:00") true
        (fun _ => (0, bytes "301 http://example.com")) (some (bytes "a.com"))).stdout
      = [50, 48, 50, 52, 45, 48, 49, 45, 48, 49, 32, 48, 48, 58, 48, 48, 58, 48, 48, 9,
          97, 46, 99, 111, 109, 9, 51, 48, 49, 9,
          104, 116, 116, 112, 58, 47, 47, 101, 120, 97, 109, 112, 108, 101, 46, 99, 111, 109,
          10] ∧
      (on_request (-30988) 1 (bytes "2024-01-01 00:00:00") true
        (fun _ => (0, bytes "301 http://example.com")) (some (bytes "a.com"))).stdout.count 10
        = 1 := by
  have hh := on_request_hit (-30988) 1 (bytes "2024-01-01 00:00:00")
    (fun _ => (0, bytes "301 http://example.com")) (bytes "a.com") _ rfl
  obtain ⟨r, hr, hs, hc⟩ := C9_access_log (-30988) 1 (bytes "2024-01-01 00:00:00") true
    (fun _ => (0, bytes "301 http://example.com")) (bytes "a.com") (by decide) (by decide)
    (by rw [hh]; decide)
  refine ⟨?_, hc⟩
  rw [hh] at hr hs
  have hr2 : r = ⟨301, bytes "Redirect", []⟩ := (Option.some.inj hr).symm
  subst hr2
  rw [hh]
  exact hs.trans (by decide)

end Redirector
